import Mathlib

/-!
Verification of the path-walking core of the `fs` package (src/fs/util.go).

Modelling conventions for the shallow embedding:

* A filesystem path is modelled in its cleaned absolute form by the list of
  its components (`Path := List String`); the OS root "/" is `[]`.  On this
  representation Go's `path.Dir` is `List.dropLast`, `path.Base` is the last
  component, `path.Join` is list append, and `filepath.Clean` is the
  identity.
* OS and liblustre collaborators (`os.Lstat`, `LookupFid`, `os.Open`,
  `llapi.GetMdtIndexByFid`, `llapi.GetName`) are oracles supplied in an
  environment record; `none` models a call that returns an error.
* A Go `panic` is modelled by an explicit `panicked` result constructor,
  and a Go `error` return by an `error` constructor carrying which error
  value the source constructs at that point.
-/

namespace GoLustreFs

/-- A cleaned absolute path, as the list of its components; "/" is `[]`. -/
abbrev Path := List String

/-- The `st_dev`-carrying part of `syscall.Stat_t` used by the source. -/
structure Stat_t where
  dev : Nat
deriving DecidableEq, Repr

/-- Model of `os.FileInfo`: the directory bit (`IsDir`) and the
platform-specific payload `Sys()`, which exposes a `*syscall.Stat_t` only
when the platform provides one (`none` models a `Sys()` that is not a
`*syscall.Stat_t`). -/
structure FileInfo where
  isDir : Bool
  sys : Option Stat_t
deriving DecidableEq, Repr

/-- Model of `lustre.Fid`: the only capability the walker uses is the
`IsDotLustre` predicate. -/
structure Fid where
  IsDotLustre : Bool
deriving DecidableEq, Repr

/-- The external collaborators of the walker.  `lstat` models `os.Lstat`
(`none` = error).  `lookupFid` — Modelled from the spec: `LookupFid` lives in
this repository's `fs` package but outside src/; per the spec it "resolves a
path to its opaque file identifier" and may fail (`none` = error). -/
structure FsEnv where
  lstat : Path → Option FileInfo
  lookupFid : Path → Option Fid

/-- Go `path.Dir` on a cleaned absolute path: drop the final component; the
parent of "/" is "/" itself. -/
def pathDir (p : Path) : Path := p.dropLast

/-- The `.lustre` sentinel name joined under a directory
(`path.Join(pathname, ".lustre")`). -/
def dotLustreOf (p : Path) : Path := p ++ [".lustre"]

/-- The errors the source constructs and returns through Go `error`
values. -/
inductive GoError where
  /-- an `os.Lstat` failure returned verbatim to the caller -/
  | lstatFailed (p : Path)
  /-- `fmt.Errorf("%s not a Lustre filesystem", path)` -/
  | notLustre (p : Path)
  /-- an `os.Open` failure returned verbatim -/
  | openFailed (p : Path)
  /-- an `llapi.GetMdtIndexByFid` failure returned verbatim -/
  | mdtQueryFailed
  /-- an `llapi.GetName` failure returned verbatim -/
  | getNameFailed
deriving DecidableEq, Repr

/-- Outcome of a function that can Go-panic (the walker body, which calls
`rootDevice`). -/
inductive WalkRes (α : Type) where
  | panicked (msg : String)
  | ok (v : α)
deriving DecidableEq, Repr

/-- Outcome of an exported operation: a Go panic, a returned `error`, or a
normal value. -/
inductive MRes (α : Type) where
  | panicked (msg : String)
  | error (e : GoError)
  | ok (v : α)
deriving DecidableEq, Repr

/-- `rootDevice` (util.go:161): extract `Stat_t.Dev` from `FileInfo.Sys()`;
when no stat structure is available the source executes
`panic("no stat available")`. -/
def rootDevice (fi : FileInfo) : Except String Nat :=
  match fi.sys with
  | some st => Except.ok st.dev
  | none => Except.error "no stat available"

/-- `isDotLustre` (util.go:146): `os.Lstat(dir)`; on error `false`; if a
directory, `LookupFid(dir)` and return `true` exactly when the lookup
succeeded and the fid satisfies `IsDotLustre`; otherwise `false`. -/
def isDotLustre (env : FsEnv) (dir : Path) : Bool :=
  match env.lstat dir with
  | none => false
  | some fi =>
    if fi.isDir then
      match env.lookupFid dir with
      | some fid => fid.IsDotLustre
      | none => false
    else false

/-- `findRoot` (util.go:171): walk up from `pathname` while the parent's
device equals `dev`; at a device change or at "/", test the `.lustre`
sentinel; a failed `Lstat` of the parent returns `""` (here `Option.none`).
The `rootDevice` panic propagates. -/
def findRoot (env : FsEnv) (dev : Nat) (pathname : Path) : WalkRes (Option Path) :=
  match env.lstat (pathDir pathname) with
  | none => .ok none
  | some fi =>
    match rootDevice fi with
    | .error m => .panicked m
    | .ok d =>
      if h : d ≠ dev ∨ pathname = [] then
        if isDotLustre env (dotLustreOf pathname) then .ok (some pathname)
        else .ok none
      else
        findRoot env dev (pathDir pathname)
termination_by pathname.length
decreasing_by
  simp only [not_or] at h
  have hne : pathname ≠ [] := h.2
  have hlen : pathname.length ≠ 0 := by simpa using hne
  simp only [pathDir, List.length_dropLast]
  omega

/-- Fuel-indexed version of `findRoot`, used to reason about its recursion
depth and to evaluate it on concrete inputs; `none` means the fuel ran
out. -/
def findRootFuel (env : FsEnv) (dev : Nat) : Nat → Path → Option (WalkRes (Option Path))
  | 0, _ => none
  | fuel + 1, pathname =>
    match env.lstat (pathDir pathname) with
    | none => some (.ok none)
    | some fi =>
      match rootDevice fi with
      | .error m => some (.panicked m)
      | .ok d =>
        if d ≠ dev ∨ pathname = [] then
          if isDotLustre env (dotLustreOf pathname) then some (.ok (some pathname))
          else some (.ok none)
        else
          findRootFuel env dev fuel (pathDir pathname)

/-- `findRelPath` (util.go:205): like `findRoot` but also accumulates the
components stripped on the way up; at success the source returns
`(pathname, path.Join(relPath...))` — here the accumulated component list
stands for that joined relative path. -/
def findRelPath (env : FsEnv) (dev : Nat) (pathname : Path) (relPath : List String) :
    WalkRes (Option (Path × List String)) :=
  match env.lstat (pathDir pathname) with
  | none => .ok none
  | some fi =>
    match rootDevice fi with
    | .error m => .panicked m
    | .ok d =>
      if h : d ≠ dev ∨ pathname = [] then
        if isDotLustre env (dotLustreOf pathname) then .ok (some (pathname, relPath))
        else .ok none
      else
        findRelPath env dev (pathDir pathname)
          (pathname.getLast (fun hnil => h (Or.inr hnil)) :: relPath)
termination_by pathname.length
decreasing_by
  simp only [not_or] at h
  have hne : pathname ≠ [] := h.2
  have hlen : pathname.length ≠ 0 := by simpa using hne
  simp only [pathDir, List.length_dropLast]
  omega

/-- Fuel-indexed version of `findRelPath`. -/
def findRelPathFuel (env : FsEnv) (dev : Nat) :
    Nat → Path → List String → Option (WalkRes (Option (Path × List String)))
  | 0, _, _ => none
  | fuel + 1, pathname, relPath =>
    match env.lstat (pathDir pathname) with
    | none => some (.ok none)
    | some fi =>
      match rootDevice fi with
      | .error m => some (.panicked m)
      | .ok d =>
        if h : d ≠ dev ∨ pathname = [] then
          if isDotLustre env (dotLustreOf pathname) then some (.ok (some (pathname, relPath)))
          else some (.ok none)
        else
          findRelPathFuel env dev fuel (pathDir pathname)
            (pathname.getLast (fun hnil => h (Or.inr hnil)) :: relPath)

/-- `RootDir` (util.go:42) represents the mount point of a Lustre
filesystem. -/
abbrev RootDir := Path

/-- `RootDir.Join` (util.go:110): `path.Join(string(root), path.Join(args...))`,
which on component lists is append. -/
def RootDir.Join (root : RootDir) (args : List String) : Path := root ++ args

/-- `MountRoot` (util.go:190): `os.Lstat` the path (an error is returned to
the caller verbatim), take its device, run `findRoot`; the empty result is
turned into the error `"%s not a Lustre filesystem"`. -/
def MountRoot (env : FsEnv) (p : Path) : MRes RootDir :=
  match env.lstat p with
  | none => .error (.lstatFailed p)
  | some fi =>
    match rootDevice fi with
    | .error m => .panicked m
    | .ok dev =>
      match findRoot env dev p with
      | .panicked m => .panicked m
      | .ok none => .error (.notLustre p)
      | .ok (some r) => .ok r

/-- `MountRelPath` (util.go:224): `filepath.Clean` the path (the identity on
this cleaned representation), `os.Lstat` it (an error is returned verbatim),
run `findRelPath` with an empty accumulator; the empty result is turned into
the error `"%s not a Lustre filesystem"`. -/
def MountRelPath (env : FsEnv) (p : Path) : MRes (RootDir × List String) :=
  match env.lstat p with
  | none => .error (.lstatFailed p)
  | some fi =>
    match rootDevice fi with
    | .error m => .panicked m
    | .ok dev =>
      match findRelPath env dev p [] with
      | .panicked m => .panicked m
      | .ok none => .error (.notLustre p)
      | .ok (some (root, relPath)) => .ok (root, relPath)

/-- `mountDir` (util.go:44): a cached handle for one mount root.  The mutex
is omitted: the model is single-threaded, every call runs to completion.
`f` is the `*os.File`, modelled by its descriptor (`none` = the nil
pointer). -/
structure mountDir where
  path : Path
  opened : Bool
  f : Option Nat
deriving DecidableEq, Repr

/-- OS and liblustre collaborators of the mount-handle cache: `os.Open`
(`none` = error) and `llapi.GetMdtIndexByFid` (`none` = error). -/
structure OsEnv where
  openDir : Path → Option Nat
  getMdtIndexByFid : Nat → Fid → Option Nat

/-- `mountDir.open` (util.go:59; `open` is a Lean keyword): under the lock,
if not yet opened, `os.Open` the root; on success store the file and set
`opened`.  Second component counts the underlying `os.Open` calls this call
performed. -/
def mountDir.openRoot (os : OsEnv) (m : mountDir) : mountDir × Nat × Option GoError :=
  if m.opened then (m, 0, none)
  else
    match os.openDir m.path with
    | none => (m, 1, some (.openFailed m.path))
    | some fd => ({ m with f := some fd, opened := true }, 1, none)

/-- Lines 85–89 of `mountDir.GetMdt`: `llapi.GetMdtIndexByFid(int(m.f.Fd()), in)`;
dereferencing a nil `m.f` would be a Go runtime panic.  `k` threads through
the open count of the preceding step. -/
def mountDir.query (os : OsEnv) (m : mountDir) (k : Nat) (fid : Fid) :
    mountDir × Nat × MRes Nat :=
  match m.f with
  | none => (m, k, .panicked "invalid memory address or nil pointer dereference")
  | some fd =>
    match os.getMdtIndexByFid fd fid with
    | none => (m, k, .error .mdtQueryFailed)
    | some idx => (m, k, .ok idx)

/-- `mountDir.GetMdt` (util.go:78): open lazily if needed (propagating an
open error), then forward the fid query. -/
def mountDir.GetMdt (os : OsEnv) (m : mountDir) (fid : Fid) : mountDir × Nat × MRes Nat :=
  if m.opened then
    mountDir.query os m 0 fid
  else
    match mountDir.openRoot os m with
    | (m2, k, some e) => (m2, k, .error e)
    | (m2, k, none) => mountDir.query os m2 k fid

/-- The process-wide `openMount` map (util.go:53), as an association list;
the Go map holds pointers, so mutations of a handle are written back by
`Registry.update`. -/
abbrev Registry := List (Path × mountDir)

/-- The Go map lookup `openMount[root]` on the association-list model. -/
def Registry.find (reg : Registry) (root : RootDir) : Option mountDir :=
  match reg with
  | [] => none
  | (r, m) :: rest => if r = root then some m else Registry.find rest root

/-- `getOpenMount` (util.go:92): look the root up in the registry, inserting
a fresh unopened handle when absent. -/
def getOpenMount (reg : Registry) (root : RootDir) : Registry × mountDir :=
  match Registry.find reg root with
  | some mnt => (reg, mnt)
  | none =>
    let mnt : mountDir := { path := root, opened := false, f := none }
    ((root, mnt) :: reg, mnt)

/-- Write a mutated handle back into the registry slot it came from
(pointer semantics of the Go map). -/
def Registry.update (reg : Registry) (root : RootDir) (m : mountDir) : Registry :=
  match reg with
  | [] => []
  | (r, old) :: rest =>
    if r = root then (r, m) :: rest
    else (r, old) :: Registry.update rest root m

/-- `GetMdt` (util.go:103): `getOpenMount` then the handle's `GetMdt`. -/
def GetMdt (os : OsEnv) (reg : Registry) (root : RootDir) (fid : Fid) :
    Registry × Nat × MRes Nat :=
  let s := getOpenMount reg root
  let r := mountDir.GetMdt os s.2 fid
  (Registry.update s.1 root r.1, r.2.1, r.2.2)

/-- Run a sequence of `GetMdt` calls for the same root single-threadedly,
returning the final registry and the total number of underlying `os.Open`
calls. -/
def runGetMdts (os : OsEnv) (reg : Registry) (root : RootDir) : List Fid → Registry × Nat
  | [] => (reg, 0)
  | fid :: rest =>
    let s := GetMdt os reg root fid
    let t := runGetMdts os s.1 root rest
    (t.1, s.2.1 + t.2)

/-- Go `strings.Split(id, "-")` (util.go:36), specialised to the separator
`"-"`, over the character list of `id`: split at every dash; never returns
an empty list. -/
def splitDash : List Char → List (List Char)
  | [] => [[]]
  | c :: rest =>
    if c = '-' then [] :: splitDash rest
    else
      match splitDash rest with
      | [] => [[c]]
      | p :: ps => (c :: p) :: ps

/-- `status.LustreClient` as constructed by `MountID` (util.go:37). -/
structure LustreClient where
  FsName : List Char
  ClientID : List Char
deriving DecidableEq, Repr

/-- `MountID` (util.go:31): `llapi.GetName` (an error is returned verbatim),
split the name on `"-"`, and build the client from `elem[0]` and `elem[1]`;
indexing `elem[1]` when the split has fewer than two fields is a Go runtime
panic. -/
def MountID (getName : Path → Option (List Char)) (mountPath : Path) : MRes LustreClient :=
  match getName mountPath with
  | none => .error .getNameFailed
  | some id =>
    match splitDash id with
    | e0 :: e1 :: _ => .ok { FsName := e0, ClientID := e1 }
    | _ => .panicked "runtime error: index out of range"

/-! Concrete environments used to exercise the operations on explicit
inputs: a host whose device 1 holds "/" and "/mnt" and whose device 2 is a
Lustre filesystem mounted at "/mnt/fs" (`envA`); a host where the parent of
the starting entry cannot be stat-ed (`envC1`); a host entirely on device 7
with no Lustre filesystem anywhere (`envC2`). -/

/-- Device map of host A: device 1 for "/" and "/mnt", device 2 below. -/
def devA (q : Path) : Nat := if q = ([] : Path) ∨ q = ["mnt"] then 1 else 2

/-- Host A: every path stats as a directory, and the `.lustre` sentinel of
"/mnt/fs" is the one fid satisfying `IsDotLustre`. -/
def envA : FsEnv where
  lstat := fun q => some { isDir := true, sys := some { dev := devA q } }
  lookupFid := fun q =>
    if q = (["mnt", "fs", ".lustre"] : Path) then some { IsDotLustre := true } else none

/-- Host where only the entry "/a/b" itself can be stat-ed; the stat of its
parent "/a" fails. -/
def envC1 : FsEnv where
  lstat := fun q =>
    if q = (["a", "b"] : Path) then some { isDir := true, sys := some { dev := 5 } } else none
  lookupFid := fun _ => none

/-- Host entirely on device 7 where every fid lookup fails: no directory
validates as a Lustre root. -/
def envC2 : FsEnv where
  lstat := fun _ => some { isDir := true, sys := some { dev := 7 } }
  lookupFid := fun _ => none

/-- Host whose OS root "/" is itself the Lustre mount root: one device
everywhere and a validating sentinel at "/.lustre". -/
def envRoot : FsEnv where
  lstat := fun _ => some { isDir := true, sys := some { dev := 3 } }
  lookupFid := fun q =>
    if q = ([".lustre"] : Path) then some { IsDotLustre := true } else none

/-- OS oracle for the cache tests: opening "/mnt/fs" yields descriptor 3,
opening anything else fails; every mdt query answers index 0. -/
def osA : OsEnv where
  openDir := fun q => if q = (["mnt", "fs"] : Path) then some 3 else none
  getMdtIndexByFid := fun _ _ => some 0

/-- `llapi.GetName` oracle returning a client name with no "-" separator. -/
def getNameNoDash : Path → Option (List Char) := fun _ => some ['l', 'u', 's', 't', 'r', 'e']

/-- `llapi.GetName` oracle returning the well-formed name "fsname-c1". -/
def getNameDash : Path → Option (List Char) :=
  fun _ => some ['f', 's', 'n', 'a', 'm', 'e', '-', 'c', '1']

/-!
Theorems.  First the generic lemmas about the embedding, then one theorem
per specification claim (with its witness or counterexample).
-/

/-- Fuel one past the depth of the path always suffices: the recursion of
`findRoot` descends along `pathDir`, whose length strictly decreases. -/
theorem findRootFuel_spec (env : FsEnv) (dev : Nat) :
    ∀ (n : Nat) (p : Path), p.length < n →
      findRootFuel env dev n p = some (findRoot env dev p) := by
  intro n
  induction n with
  | zero => intro p h; omega
  | succ n ih =>
    intro p hp
    rw [findRoot.eq_def]
    simp only [findRootFuel]
    split
    next => rfl
    next fi _ =>
      split
      next m _ => rfl
      next d _ =>
        by_cases hb : d ≠ dev ∨ p = []
        · rw [if_pos hb, dif_pos hb]
          split <;> rfl
        · rw [if_neg hb, dif_neg hb]
          apply ih
          have hne : p ≠ [] := fun hnil => hb (Or.inr hnil)
          have hlen : p.length ≠ 0 := by simpa using hne
          simp only [pathDir, List.length_dropLast]
          omega

/-- Evaluate `findRoot` through its fuel-indexed version (used on concrete
inputs, where `findRootFuel` computes by `rfl`). -/
theorem findRoot_eval (env : FsEnv) (dev : Nat) (p : Path) (r : WalkRes (Option Path))
    (h : findRootFuel env dev (p.length + 1) p = some r) : findRoot env dev p = r := by
  have hs := findRootFuel_spec env dev (p.length + 1) p (Nat.lt_succ_self _)
  rw [h] at hs
  exact (Option.some.inj hs).symm

/-- Fuel one past the depth of the path suffices for `findRelPath` as
well. -/
theorem findRelPathFuel_spec (env : FsEnv) (dev : Nat) :
    ∀ (n : Nat) (p : Path) (acc : List String), p.length < n →
      findRelPathFuel env dev n p acc = some (findRelPath env dev p acc) := by
  intro n
  induction n with
  | zero => intro p acc h; omega
  | succ n ih =>
    intro p acc hp
    rw [findRelPath.eq_def]
    simp only [findRelPathFuel]
    split
    next => rfl
    next fi _ =>
      split
      next m _ => rfl
      next d _ =>
        by_cases hb : d ≠ dev ∨ p = []
        · rw [dif_pos hb, dif_pos hb]
          split <;> rfl
        · rw [dif_neg hb, dif_neg hb]
          apply ih
          have hne : p ≠ [] := fun hnil => hb (Or.inr hnil)
          have hlen : p.length ≠ 0 := by simpa using hne
          simp only [pathDir, List.length_dropLast]
          omega

/-- Evaluate `findRelPath` through its fuel-indexed version. -/
theorem findRelPath_eval (env : FsEnv) (dev : Nat) (p : Path) (acc : List String)
    (r : WalkRes (Option (Path × List String)))
    (h : findRelPathFuel env dev (p.length + 1) p acc = some r) :
    findRelPath env dev p acc = r := by
  have hs := findRelPathFuel_spec env dev (p.length + 1) p acc (Nat.lt_succ_self _)
  rw [h] at hs
  exact (Option.some.inj hs).symm

/-- `MountRoot` in terms of `findRoot`, once the starting stat succeeds. -/
theorem MountRoot_unfold (env : FsEnv) (p : Path) (fi : FileInfo) (st : Stat_t)
    (h1 : env.lstat p = some fi) (h2 : fi.sys = some st) :
    MountRoot env p =
      match findRoot env st.dev p with
      | .panicked m => .panicked m
      | .ok none => .error (.notLustre p)
      | .ok (some r) => .ok r := by
  simp only [MountRoot, h1, rootDevice, h2]

/-- `MountRelPath` in terms of `findRelPath`, once the starting stat
succeeds. -/
theorem MountRelPath_unfold (env : FsEnv) (p : Path) (fi : FileInfo) (st : Stat_t)
    (h1 : env.lstat p = some fi) (h2 : fi.sys = some st) :
    MountRelPath env p =
      match findRelPath env st.dev p [] with
      | .panicked m => .panicked m
      | .ok none => .error (.notLustre p)
      | .ok (some (root, relPath)) => .ok (root, relPath) := by
  simp only [MountRelPath, h1, rootDevice, h2]

/-- Claim C8: every failure mode of sentinel validation — a failed stat of
the sentinel directory, its not being a directory, a failed fid lookup, or
the fid not satisfying `IsDotLustre` — makes `isDotLustre` answer `false`;
being `Bool`-valued, the validation never surfaces an error. -/
theorem isDotLustre_failure_false (env : FsEnv) (dir : Path)
    (h : env.lstat dir = none ∨
         ∃ fi, env.lstat dir = some fi ∧
           (fi.isDir = false ∨ env.lookupFid dir = none ∨
            ∃ fid, env.lookupFid dir = some fid ∧ fid.IsDotLustre = false)) :
    isDotLustre env dir = false := by
  rcases h with h | ⟨fi, hfi, h⟩
  · simp [isDotLustre, h]
  · rcases h with h | h | ⟨fid, hfid, h⟩
    · simp [isDotLustre, hfi, h]
    · simp [isDotLustre, hfi, h]
    · simp [isDotLustre, hfi, hfid, h]

/-- Witness for C8: on host `envC2` every fid lookup fails, so the sentinel
validation of "/.lustre" answers `false`. -/
theorem isDotLustre_failure_false_witness : isDotLustre envC2 [".lustre"] = false :=
  isDotLustre_failure_false envC2 [".lustre"]
    (Or.inr ⟨{ isDir := true, sys := some { dev := 7 } }, rfl, Or.inr (Or.inl rfl)⟩)

/-- Claim C9: when the platform metadata exposes no stat structure,
`rootDevice` aborts with the fatal panic `"no stat available"` and never
produces a device value. -/
theorem rootDevice_fatal_without_stat (fi : FileInfo) (h : fi.sys = none) :
    rootDevice fi = Except.error "no stat available" ∧
    ∀ d : Nat, rootDevice fi ≠ Except.ok d := by
  have he : rootDevice fi = Except.error "no stat available" := by
    simp [rootDevice, h]
  refine ⟨he, fun d hd => ?_⟩
  rw [he] at hd
  exact Except.noConfusion hd

/-- Witness for C9: a `FileInfo` whose `Sys()` is not a stat structure. -/
theorem rootDevice_fatal_without_stat_witness :
    rootDevice { isDir := true, sys := none } = Except.error "no stat available" :=
  (rootDevice_fatal_without_stat { isDir := true, sys := none } rfl).1

/-- Go's `strings.Split` never returns an empty slice. -/
theorem splitDash_ne_nil (s : List Char) : splitDash s ≠ [] := by
  induction s with
  | nil => simp [splitDash]
  | cons c rest ih =>
    simp only [splitDash]
    by_cases hc : c = '-'
    · simp [hc]
    · rw [if_neg hc]
      cases hs : splitDash rest <;> simp

/-- A string without the separator splits into the single field holding the
whole string. -/
theorem splitDash_no_dash (s : List Char) (h : '-' ∉ s) : splitDash s = [s] := by
  induction s with
  | nil => rfl
  | cons c rest ih =>
    have hc : c ≠ '-' := fun he => h (he ▸ List.mem_cons_self c rest)
    have hr : '-' ∉ rest := fun hm => h (List.mem_cons_of_mem c hm)
    simp only [splitDash]
    rw [if_neg hc, ih hr]

/-- Claim C10: when the name lookup succeeds, `MountID` panics with the
out-of-range index whenever the name contains no "-", and returns a client
record exactly when the split has at least two fields, taking the first as
`FsName` and the second as `ClientID`. -/
theorem mountID_dash_split (getName : Path → Option (List Char)) (mountPath : Path)
    (id : List Char) (h : getName mountPath = some id) :
    ('-' ∉ id → MountID getName mountPath = .panicked "runtime error: index out of range") ∧
    (∀ e0 e1 rest, splitDash id = e0 :: e1 :: rest →
      MountID getName mountPath = .ok { FsName := e0, ClientID := e1 }) ∧
    (∀ c, MountID getName mountPath = .ok c → 2 ≤ (splitDash id).length) := by
  refine ⟨fun hnd => ?_, fun e0 e1 rest hs => ?_, fun c hc => ?_⟩
  · simp only [MountID, h, splitDash_no_dash id hnd]
  · simp only [MountID, h, hs]
  · simp only [MountID, h] at hc
    cases hs : splitDash id with
    | nil => rw [hs] at hc; exact MRes.noConfusion hc
    | cons e0 tl =>
      cases tl with
      | nil => rw [hs] at hc; exact MRes.noConfusion hc
      | cons e1 tl2 => simp

/-- Witness for C10: the dash-less name "lustre" makes `MountID` panic, and
the name "fsname-c1" yields the client record ("fsname", "c1"). -/
theorem mountID_dash_split_witness :
    MountID getNameNoDash ["mnt", "fs"] = .panicked "runtime error: index out of range" ∧
    MountID getNameDash ["mnt", "fs"] =
      .ok { FsName := ['f', 's', 'n', 'a', 'm', 'e'], ClientID := ['c', '1'] } :=
  ⟨(mountID_dash_split getNameNoDash ["mnt", "fs"] ['l', 'u', 's', 't', 'r', 'e'] rfl).1
      (by decide),
   (mountID_dash_split getNameDash ["mnt", "fs"]
      ['f', 's', 'n', 'a', 'm', 'e', '-', 'c', '1'] rfl).2.1
      ['f', 's', 'n', 'a', 'm', 'e'] ['c', '1'] [] (by decide)⟩

/-- Counterexample to C1: on host `envC1` the starting entry "/a/b" is
stat-able but the stat of its parent "/a" fails; `MountRoot` and
`MountRelPath` nonetheless classify the path as "not a Lustre filesystem"
instead of propagating the lookup error. -/
theorem mountRoot_walk_stat_error_counterexample :
    envC1.lstat ["a", "b"] = some { isDir := true, sys := some { dev := 5 } } ∧
    envC1.lstat (pathDir ["a", "b"]) = none ∧
    MountRoot envC1 ["a", "b"] = .error (.notLustre ["a", "b"]) ∧
    MountRelPath envC1 ["a", "b"] = .error (.notLustre ["a", "b"]) ∧
    MountRoot envC1 ["a", "b"] ≠ .error (.lstatFailed ["a"]) := by
  have hf : findRoot envC1 5 ["a", "b"] = .ok none :=
    findRoot_eval envC1 5 ["a", "b"] (.ok none) rfl
  have hr : findRelPath envC1 5 ["a", "b"] [] = .ok none :=
    findRelPath_eval envC1 5 ["a", "b"] [] (.ok none) rfl
  have hM : MountRoot envC1 ["a", "b"] = .error (.notLustre ["a", "b"]) := by
    rw [MountRoot_unfold envC1 ["a", "b"] { isDir := true, sys := some { dev := 5 } }
      { dev := 5 } rfl rfl, hf]
  have hN : MountRelPath envC1 ["a", "b"] = .error (.notLustre ["a", "b"]) := by
    rw [MountRelPath_unfold envC1 ["a", "b"] { isDir := true, sys := some { dev := 5 } }
      { dev := 5 } rfl rfl, hr]
  refine ⟨rfl, rfl, hM, hN, ?_⟩
  rw [hM]
  decide

/-- Claim C1 (amended): when a parent stat fails during the walk, the walk
reports the empty NotFound result, so `MountRoot` and `MountRelPath` fail
with the "not a Lustre filesystem" classification error; once the starting
entry is stat-able, no lookup error of the walk is ever propagated. -/
theorem mountRoot_walk_stat_error_swallowed (env : FsEnv) (p : Path)
    (fi : FileInfo) (st : Stat_t)
    (h1 : env.lstat p = some fi) (h2 : fi.sys = some st) :
    (∀ q : Path, MountRoot env p ≠ .error (.lstatFailed q)) ∧
    (env.lstat (pathDir p) = none →
      MountRoot env p = .error (.notLustre p) ∧
      MountRelPath env p = .error (.notLustre p)) := by
  constructor
  · intro q hq
    rw [MountRoot_unfold env p fi st h1 h2] at hq
    cases hfr : findRoot env st.dev p with
    | panicked m => rw [hfr] at hq; simp at hq
    | ok o =>
      cases o with
      | none => rw [hfr] at hq; simp at hq
      | some r => rw [hfr] at hq; simp at hq
  · intro hnone
    have hf : findRoot env st.dev p = .ok none := by
      rw [findRoot.eq_def, hnone]
    have hr : findRelPath env st.dev p [] = .ok none := by
      rw [findRelPath.eq_def, hnone]
    exact ⟨by rw [MountRoot_unfold env p fi st h1 h2, hf],
           by rw [MountRelPath_unfold env p fi st h1 h2, hr]⟩

/-- Witness for the amended C1 on host `envC1`. -/
theorem mountRoot_walk_stat_error_swallowed_witness :
    MountRoot envC1 ["a", "b"] ≠ .error (.lstatFailed ["a"]) ∧
    MountRoot envC1 ["a", "b"] = .error (.notLustre ["a", "b"]) :=
  have h := mountRoot_walk_stat_error_swallowed envC1 ["a", "b"]
    { isDir := true, sys := some { dev := 5 } } { dev := 5 } rfl rfl
  ⟨h.1 ["a"], (h.2 rfl).1⟩

/-- Counterexample to C2: on host `envC2` the path "/x" is outside any
Lustre mount and every ancestor is stat-able, yet `MountRoot` reports the
NotFound classification as an error. -/
theorem mountRoot_outside_error_counterexample :
    envC2.lstat ["x"] = some { isDir := true, sys := some { dev := 7 } } ∧
    envC2.lstat [] = some { isDir := true, sys := some { dev := 7 } } ∧
    isDotLustre envC2 ["x", ".lustre"] = false ∧
    isDotLustre envC2 [".lustre"] = false ∧
    MountRoot envC2 ["x"] = .error (.notLustre ["x"]) := by
  have hf : findRoot envC2 7 ["x"] = .ok none :=
    findRoot_eval envC2 7 ["x"] (.ok none) rfl
  refine ⟨rfl, rfl, rfl, rfl, ?_⟩
  rw [MountRoot_unfold envC2 ["x"] { isDir := true, sys := some { dev := 7 } }
    { dev := 7 } rfl rfl, hf]

/-- On a host where every directory is stat-able and no directory validates
as a sentinel, the walk always produces the NotFound result, whatever the
device and the fuel. -/
theorem findRootFuel_no_sentinel (env : FsEnv) (dev : Nat)
    (hall : ∀ q : Path, ∃ fi st, env.lstat q = some fi ∧ fi.sys = some st)
    (hnos : ∀ q : Path, isDotLustre env q = false) :
    ∀ (n : Nat) (p : Path), p.length < n → findRootFuel env dev n p = some (.ok none) := by
  intro n
  induction n with
  | zero => intro p h; omega
  | succ n ih =>
    intro p hp
    obtain ⟨fi, st, hfi, hst⟩ := hall (pathDir p)
    simp only [findRootFuel, hfi, rootDevice, hst]
    by_cases hb : st.dev ≠ dev ∨ p = []
    · rw [if_pos hb, hnos (dotLustreOf p)]
      simp
    · rw [if_neg hb]
      apply ih
      have hne : p ≠ [] := fun hnil => hb (Or.inr hnil)
      have hlen : p.length ≠ 0 := by simpa using hne
      simp only [pathDir, List.length_dropLast]
      omega

/-- Claim C2 (amended): for a stat-able path outside any Lustre mount with
all ancestors stat-able, `findRoot` produces the NotFound outcome as a
normal value (never an error or panic), but `MountRoot` hands it to the
caller as the "not a Lustre filesystem" error. -/
theorem mountRoot_outside_notLustre (env : FsEnv) (p : Path) (fi : FileInfo) (st : Stat_t)
    (hall : ∀ q : Path, ∃ fi2 st2, env.lstat q = some fi2 ∧ fi2.sys = some st2)
    (hnos : ∀ q : Path, isDotLustre env q = false)
    (h1 : env.lstat p = some fi) (h2 : fi.sys = some st) :
    findRoot env st.dev p = .ok none ∧ MountRoot env p = .error (.notLustre p) := by
  have hf : findRoot env st.dev p = .ok none := by
    have hv := findRootFuel_no_sentinel env st.dev hall hnos (p.length + 1) p
      (Nat.lt_succ_self _)
    have hs := findRootFuel_spec env st.dev (p.length + 1) p (Nat.lt_succ_self _)
    rw [hv] at hs
    exact (Option.some.inj hs).symm
  exact ⟨hf, by rw [MountRoot_unfold env p fi st h1 h2, hf]⟩

/-- Witness for the amended C2 on host `envC2`. -/
theorem mountRoot_outside_notLustre_witness :
    findRoot envC2 7 ["x"] = .ok none ∧
    MountRoot envC2 ["x"] = .error (.notLustre ["x"]) :=
  mountRoot_outside_notLustre envC2 ["x"]
    { isDir := true, sys := some { dev := 7 } } { dev := 7 }
    (fun q => ⟨{ isDir := true, sys := some { dev := 7 } }, { dev := 7 }, rfl, rfl⟩)
    (fun q => by simp [isDotLustre, envC2])
    rfl rfl

/-- The accumulator invariant of the relative-path walk: a successful
result joined back together equals the walked path followed by the
accumulator. -/
theorem findRelPathFuel_join (env : FsEnv) (dev : Nat) :
    ∀ (n : Nat) (p : Path) (acc : List String) (r : Path) (rel : List String),
      findRelPathFuel env dev n p acc = some (.ok (some (r, rel))) → r ++ rel = p ++ acc := by
  intro n
  induction n with
  | zero => intro p acc r rel h; simp [findRelPathFuel] at h
  | succ n ih =>
    intro p acc r rel h
    simp only [findRelPathFuel] at h
    split at h
    next => simp at h
    next fi heq =>
      split at h
      next => simp at h
      next d heq2 =>
        by_cases hb : d ≠ dev ∨ p = []
        · rw [dif_pos hb] at h
          by_cases hs : isDotLustre env (dotLustreOf p) = true
          · rw [if_pos hs] at h
            simp only [Option.some.injEq, WalkRes.ok.injEq, Prod.mk.injEq] at h
            obtain ⟨hr, hrel⟩ := h
            rw [← hr, ← hrel]
          · rw [if_neg hs] at h; simp at h
        · rw [dif_neg hb] at h
          have hne : p ≠ [] := fun hnil => hb (Or.inr hnil)
          have hstep := ih (pathDir p) (p.getLast (fun hnil => hb (Or.inr hnil)) :: acc) r rel h
          rw [hstep]
          have hsplit : p.dropLast ++ [p.getLast hne] = p := List.dropLast_append_getLast hne

          calc p.dropLast ++ (p.getLast hne :: acc)
              = (p.dropLast ++ [p.getLast hne]) ++ acc := by simp
            _ = p ++ acc := by rw [hsplit]

/-- Claim C3: a successful `MountRelPath` returns a root and relative
suffix whose join is the cleaned input path, with the suffix components in
original order. -/
theorem mountRelPath_join (env : FsEnv) (p : Path) (r : RootDir) (rel : List String)
    (h : MountRelPath env p = .ok (r, rel)) : RootDir.Join r rel = p := by
  simp only [MountRelPath] at h
  split at h
  next => simp at h
  next fi heq =>
    split at h
    next => simp at h
    next dev heq2 =>
      split at h
      next => simp at h
      next => simp at h
      next root relPath heq3 =>
        simp only [MRes.ok.injEq, Prod.mk.injEq] at h
        obtain ⟨hr, hrel⟩ := h
        have hfuel : findRelPathFuel env dev (p.length + 1) p [] =
            some (.ok (some (root, relPath))) := by
          rw [findRelPathFuel_spec env dev (p.length + 1) p [] (Nat.lt_succ_self _), heq3]
        have hj := findRelPathFuel_join env dev (p.length + 1) p [] root relPath hfuel
        simp only [List.append_nil] at hj
        rw [RootDir.Join, ← hr, ← hrel, hj]

/-- Witness for C3 on host `envA`: joining the returned root "/mnt/fs" with
the returned suffix "a/b" gives back "/mnt/fs/a/b". -/
theorem mountRelPath_join_witness :
    RootDir.Join ["mnt", "fs"] ["a", "b"] = ["mnt", "fs", "a", "b"] :=
  mountRelPath_join envA ["mnt", "fs", "a", "b"] ["mnt", "fs"] ["a", "b"] (by
    rw [MountRelPath_unfold envA ["mnt", "fs", "a", "b"]
        { isDir := true, sys := some { dev := 2 } } { dev := 2 } rfl rfl,
      findRelPath_eval envA 2 ["mnt", "fs", "a", "b"] []
        (.ok (some (["mnt", "fs"], ["a", "b"]))) rfl])

/-- Claim C4: the ancestor walks terminate with recursion depth bounded by
the depth of the path — fuel one past the path depth always suffices and
reproduces `findRoot` and `findRelPath`, because each recursive step
strictly shortens the path. -/
theorem walk_depth_bounded (env : FsEnv) (dev : Nat) (n : Nat) (p : Path)
    (acc : List String) (h : p.length < n) :
    findRootFuel env dev n p = some (findRoot env dev p) ∧
    findRelPathFuel env dev n p acc = some (findRelPath env dev p acc) :=
  ⟨findRootFuel_spec env dev n p h, findRelPathFuel_spec env dev n p acc h⟩

/-- Witness for C4: depth 4 plus one step of fuel settles the walk on host
`envA`. -/
theorem walk_depth_bounded_witness :
    findRootFuel envA 2 5 ["mnt", "fs", "a", "b"] =
      some (findRoot envA 2 ["mnt", "fs", "a", "b"]) ∧
    findRelPathFuel envA 2 5 ["mnt", "fs", "a", "b"] [] =
      some (findRelPath envA 2 ["mnt", "fs", "a", "b"] []) :=
  walk_depth_bounded envA 2 5 ["mnt", "fs", "a", "b"] [] (by decide)

/-- A successful walk only ever returns the pathname it is standing on, so
the result is an iterated parent of the input. -/
theorem findRootFuel_ancestor (env : FsEnv) (dev : Nat) :
    ∀ (n : Nat) (p r : Path),
      findRootFuel env dev n p = some (.ok (some r)) → ∃ t, r ++ t = p := by
  intro n
  induction n with
  | zero => intro p r h; simp [findRootFuel] at h
  | succ n ih =>
    intro p r h
    simp only [findRootFuel] at h
    split at h
    next => simp at h
    next fi heq =>
      split at h
      next => simp at h
      next d heq2 =>
        by_cases hb : d ≠ dev ∨ p = []
        · rw [if_pos hb] at h
          by_cases hs : isDotLustre env (dotLustreOf p) = true
          · rw [if_pos hs] at h
            simp only [Option.some.injEq, WalkRes.ok.injEq] at h
            exact ⟨[], by simp [h]⟩
          · rw [if_neg hs] at h; simp at h
        · rw [if_neg hb] at h
          have hne : p ≠ [] := fun hnil => hb (Or.inr hnil)
          obtain ⟨t, ht⟩ := ih (pathDir p) r h
          refine ⟨t ++ [p.getLast hne], ?_⟩
          rw [← List.append_assoc]
          rw [pathDir] at ht
          rw [ht]
          exact List.dropLast_append_getLast hne

/-- Claim C5: every Root Path returned by `MountRoot` is an ancestor of the
input path or equal to it (a prefix of its component list). -/
theorem mountRoot_ancestor (env : FsEnv) (p : Path) (r : RootDir)
    (h : MountRoot env p = .ok r) : ∃ t : List String, r ++ t = p := by
  simp only [MountRoot] at h
  split at h
  next => simp at h
  next fi heq =>
    split at h
    next => simp at h
    next dev heq2 =>
      split at h
      next => simp at h
      next => simp at h
      next root heq3 =>
        simp only [MRes.ok.injEq] at h
        have hfuel : findRootFuel env dev (p.length + 1) p = some (.ok (some root)) := by
          rw [findRootFuel_spec env dev (p.length + 1) p (Nat.lt_succ_self _), heq3]
        obtain ⟨t, ht⟩ := findRootFuel_ancestor env dev (p.length + 1) p root hfuel
        exact ⟨t, by rw [h] at ht; exact ht⟩

/-- Witness for C5 on host `envA`: the returned root "/mnt/fs" is an
ancestor of the input "/mnt/fs/a/b". -/
theorem mountRoot_ancestor_witness :
    ∃ t : List String, ["mnt", "fs"] ++ t = ["mnt", "fs", "a", "b"] :=
  mountRoot_ancestor envA ["mnt", "fs", "a", "b"] ["mnt", "fs"] (by
    rw [MountRoot_unfold envA ["mnt", "fs", "a", "b"]
        { isDir := true, sys := some { dev := 2 } } { dev := 2 } rfl rfl,
      findRoot_eval envA 2 ["mnt", "fs", "a", "b"] (.ok (some ["mnt", "fs"])) rfl])

/-- Claim C6: when "/" itself is the mount root, the walk at "/" still
reaches the sentinel validation (the `pathname == "/"` disjunct fires even
though the device never changes) and `MountRoot "/"` returns "/" exactly
when the sentinel validates. -/
theorem mountRoot_osRoot_sentinel (env : FsEnv) (fi : FileInfo) (st : Stat_t)
    (h1 : env.lstat [] = some fi) (h2 : fi.sys = some st) :
    findRoot env st.dev [] =
      (if isDotLustre env (dotLustreOf []) then .ok (some ([] : Path)) else .ok none) ∧
    MountRoot env [] =
      (if isDotLustre env (dotLustreOf []) then .ok ([] : Path)
       else .error (.notLustre [])) := by
  have hf : findRoot env st.dev [] =
      if isDotLustre env (dotLustreOf []) then .ok (some ([] : Path)) else .ok none := by
    rw [findRoot.eq_def]
    have hp : pathDir ([] : Path) = [] := rfl
    rw [hp, h1]
    simp only [rootDevice, h2]
    rw [dif_pos (show st.dev ≠ st.dev ∨ True from Or.inr trivial)]
  refine ⟨hf, ?_⟩
  rw [MountRoot_unfold env [] fi st h1 h2, hf]
  by_cases hs : isDotLustre env (dotLustreOf []) = true
  · rw [if_pos hs, if_pos hs]
  · rw [if_neg hs, if_neg hs]

/-- Witness for C6 on host `envRoot`, whose "/" is the mount root:
`MountRoot "/"` validates and returns "/". -/
theorem mountRoot_osRoot_sentinel_witness : MountRoot envRoot [] = .ok ([] : Path) :=
  (mountRoot_osRoot_sentinel envRoot { isDir := true, sys := some { dev := 3 } }
    { dev := 3 } rfl rfl).2.trans (by decide)

/-- Writing back the very handle a lookup found leaves the registry
unchanged (the pointer semantics of the Go map). -/
theorem update_of_find_eq :
    ∀ (reg : Registry) (root : RootDir) (m : mountDir),
      Registry.find reg root = some m → Registry.update reg root m = reg := by
  intro reg
  induction reg with
  | nil => intro root m h; simp [Registry.find] at h
  | cons e rest ih =>
    intro root m h
    obtain ⟨r, old⟩ := e
    simp only [Registry.find] at h
    simp only [Registry.update]
    by_cases hr : r = root
    · rw [if_pos hr] at h ⊢
      injection h with hom
      rw [hom]
    · rw [if_neg hr] at h ⊢
      rw [ih root m h]

/-- First `GetMdt` call for a root not yet in the registry: one underlying
open, and the registry gains that root's opened handle. -/
theorem GetMdt_fresh (os : OsEnv) (reg : Registry) (root : RootDir) (fid : Fid) (fd : Nat)
    (hfd : os.openDir root = some fd) (hfresh : Registry.find reg root = none) :
    (GetMdt os reg root fid).1 =
      (root, { path := root, opened := true, f := some fd }) :: reg ∧
    (GetMdt os reg root fid).2.1 = 1 := by
  simp only [GetMdt, getOpenMount, hfresh, mountDir.GetMdt, mountDir.openRoot, hfd,
    mountDir.query]
  cases hq : os.getMdtIndexByFid fd fid <;> simp [hq, Registry.update]

/-- A `GetMdt` call that finds the opened handle performs no underlying
open and leaves the registry unchanged. -/
theorem GetMdt_opened (os : OsEnv) (reg : Registry) (root : RootDir) (fid : Fid) (fd : Nat)
    (hm : Registry.find reg root = some { path := root, opened := true, f := some fd }) :
    (GetMdt os reg root fid).1 = reg ∧ (GetMdt os reg root fid).2.1 = 0 := by
  simp only [GetMdt, getOpenMount, hm, mountDir.GetMdt, mountDir.query]
  cases os.getMdtIndexByFid fd fid <;>
    simp [update_of_find_eq reg root _ hm]

/-- Any run of `GetMdt` calls starting from a registry that already holds
the opened handle performs zero underlying opens. -/
theorem runGetMdts_opened (os : OsEnv) (root : RootDir) (fd : Nat) :
    ∀ (fids : List Fid) (reg : Registry),
      Registry.find reg root = some { path := root, opened := true, f := some fd } →
      runGetMdts os reg root fids = (reg, 0) := by
  intro fids
  induction fids with
  | nil => intro reg hm; rfl
  | cons fid rest ih =>
    intro reg hm
    obtain ⟨h1, h2⟩ := GetMdt_opened os reg root fid fd hm
    simp only [runGetMdts, h1, h2, ih reg hm]

/-- Claim C7: under single-threaded use, any non-empty sequence of `GetMdt`
calls for the same root performs exactly one underlying `os.Open`: the
first call opens and caches the descriptor, every later call reuses it. -/
theorem getMdt_opens_once (os : OsEnv) (reg : Registry) (root : RootDir)
    (fids : List Fid) (fd : Nat)
    (hfd : os.openDir root = some fd) (hfresh : Registry.find reg root = none)
    (hne : fids ≠ []) :
    (runGetMdts os reg root fids).2 = 1 ∧
    Registry.find (runGetMdts os reg root fids).1 root =
      some { path := root, opened := true, f := some fd } := by
  cases fids with
  | nil => exact absurd rfl hne
  | cons fid rest =>
    obtain ⟨h1, h2⟩ := GetMdt_fresh os reg root fid fd hfd hfresh
    have hfind : Registry.find
        ((root, { path := root, opened := true, f := some fd }) :: reg) root =
        some { path := root, opened := true, f := some fd } := by
      simp [Registry.find]
    simp only [runGetMdts, h1, h2, runGetMdts_opened os root fd rest _ hfind]
    refine ⟨?_, ?_⟩
    · simp
    · exact hfind

/-- Witness for C7: two `GetMdt` calls against `osA` from an empty registry
open "/mnt/fs" exactly once and cache descriptor 3. -/
theorem getMdt_opens_once_witness :
    (runGetMdts osA [] ["mnt", "fs"]
      [{ IsDotLustre := false }, { IsDotLustre := false }]).2 = 1 ∧
    Registry.find (runGetMdts osA [] ["mnt", "fs"]
      [{ IsDotLustre := false }, { IsDotLustre := false }]).1 ["mnt", "fs"] =
      some { path := ["mnt", "fs"], opened := true, f := some 3 } :=
  getMdt_opens_once osA [] ["mnt", "fs"]
    [{ IsDotLustre := false }, { IsDotLustre := false }] 3 (by decide) rfl (by decide)

end GoLustreFs
